import Mathlib

/-
Verification of the subosity-installer delegation protocol against its Go
source.  The Go code is shallowly embedded: pure decision logic is
translated into Lean functions; calls into the operating system (process
spawning, JSON decoding of foreign bytes, TCP dialing, e-mail parsing)
are abstracted as explicit oracle parameters, so that every control-flow
decision the Go code makes on the oracle results is modelled faithfully.
Timestamps (`time.Now()`) are omitted from the embedded records since no
claim concerns them.  Go `int64`/exit codes are modelled as `Int`,
Go `float64` progress weights as `ℚ` (all weights appearing in the source
are short decimal literals whose ordering and equality agree between
IEEE-754 doubles and the rationals they denote).
-/

namespace Subosity

/- Error taxonomy, from shared/constants (types.go): `ErrorCode` constants. -/

def ErrCodeSystemRequirements : String := "SYSTEM_REQUIREMENTS"

def ErrCodePortConflict : String := "PORT_CONFLICT"

def ErrCodeDockerInstall : String := "DOCKER_INSTALL_FAILED"

def ErrCodeSupabaseSetup : String := "SUPABASE_SETUP_FAILED"

def ErrCodeNetworkTimeout : String := "NETWORK_TIMEOUT"

def ErrCodePermissionDenied : String := "PERMISSION_DENIED"

def ErrCodeConfigInvalid : String := "CONFIG_INVALID"

def ErrCodeUnsupportedOS : String := "UNSUPPORTED_OS"

def ErrCodeInvalidFormat : String := "INVALID_FORMAT"

/-- Go `types.ErrorContext` (component and operation; the optional phase,
environment and metadata fields are zero-valued in every construction the
claims touch and are omitted). -/
structure ErrorContext where
  component : String
  operation : String
deriving DecidableEq

/-- Go `types.InstallError`.  `Timestamp` (set to `time.Now()`) is omitted;
`Cause` (a wrapped Go `error`) is modelled by its `Error()` string. -/
structure InstallError where
  code : String
  message : String
  details : String := ""
  suggestions : List String := []
  cause : Option String := none
  context : ErrorContext := ⟨"", ""⟩
deriving DecidableEq

/-- Go `(*types.InstallError).Error()`. -/
def InstallError.errorString (e : InstallError) : String :=
  if e.details = "" then e.message else e.message ++ ": " ++ e.details

/-- Go `errors.NewInstallationError` (pkg/errors). -/
def NewInstallationError (code message component operation : String) : InstallError :=
  { code := code, message := message, context := ⟨component, operation⟩ }

/-- Go `errors.WrapError` (pkg/errors): wraps a cause, copying its
`Error()` text into the details field when the cause is non-nil. -/
def WrapError (err : Option String) (code message component operation : String) :
    InstallError :=
  let base := NewInstallationError code message component operation
  match err with
  | none => { base with cause := none }
  | some s => { base with cause := some s, details := s }

/-- Go `errors.NewConfigError` (pkg/errors). -/
def NewConfigError (message details : String) : InstallError :=
  { code := ErrCodeConfigInvalid, message := message, details := details,
    suggestions :=
      ["Check configuration file syntax",
       "Verify all required fields are present",
       "Validate field formats (email, domain, etc.)"],
    context := ⟨"config", "validation"⟩ }

/-- Go `errors.NewSystemError` (pkg/errors); a `none` argument models the
Go `nil` suggestions slice, replaced by the default suggestion list. -/
def NewSystemError (message details : String) (suggestions : Option (List String)) :
    InstallError :=
  { code := ErrCodeSystemRequirements, message := message, details := details,
    suggestions :=
      match suggestions with
      | none =>
          ["Check system requirements documentation",
           "Ensure sufficient resources are available",
           "Verify operating system compatibility"]
      | some s => s,
    context := ⟨"system", "validation"⟩ }

/-- The Go `error` returned by `cmd.Wait()` for a failed subordinate
process: either an `*exec.ExitError` carrying the process exit code, or
some other error value (modelled by its message). -/
inductive ExecResult where
  | exitErr (code : Int)
  | otherErr (msg : String)
deriving DecidableEq

/-- Go `(*Runner).processContainerError` (internal/container/runner.go):
the exit-code → taxonomy table applied when the subordinate terminated
without a parseable structured error. -/
def processContainerError (r : ExecResult) : InstallError :=
  match r with
  | .exitErr code =>
      if code = 1 then
        NewInstallationError ErrCodeConfigInvalid
          "container installation failed with configuration error"
          "container" "execution"
      else if code = 2 then
        NewInstallationError ErrCodeSystemRequirements
          "container installation failed with system requirements error"
          "container" "execution"
      else if code = 3 then
        NewInstallationError ErrCodeDockerInstall
          "container installation failed with Docker setup error"
          "container" "execution"
      else if code = 4 then
        NewInstallationError ErrCodeSupabaseSetup
          "container installation failed with Supabase setup error"
          "container" "execution"
      else
        NewInstallationError ErrCodeSystemRequirements
          ("container installation failed with exit code " ++ toString code)
          "container" "execution"
  | .otherErr m =>
      WrapError (some m) ErrCodeSystemRequirements
        "container installation failed" "container" "execution"

/-- C1: for every non-zero exit code reported without a structured error,
`processContainerError` maps 1 to configuration-invalid, 2 to
system-requirements-not-met, 3 to container-runtime-install-failed, 4 to
platform-setup-failed, and every other non-zero code to a generic
system-requirements error whose message contains the literal exit code.
The mapping is total and deterministic because `processContainerError`
is a total function. -/
theorem processContainerError_exit_code_mapping (code : Int) (hnz : code ≠ 0) :
    (code = 1 →
      (processContainerError (.exitErr code)).code = ErrCodeConfigInvalid) ∧
    (code = 2 →
      (processContainerError (.exitErr code)).code = ErrCodeSystemRequirements) ∧
    (code = 3 →
      (processContainerError (.exitErr code)).code = ErrCodeDockerInstall) ∧
    (code = 4 →
      (processContainerError (.exitErr code)).code = ErrCodeSupabaseSetup) ∧
    (code ≠ 1 → code ≠ 2 → code ≠ 3 → code ≠ 4 →
      (processContainerError (.exitErr code)).code = ErrCodeSystemRequirements ∧
      ∃ pre post,
        (processContainerError (.exitErr code)).message =
          pre ++ toString code ++ post) := by
  refine ⟨?_, ?_, ?_, ?_, ?_⟩
  · intro h; subst h; rfl
  · intro h; subst h; rfl
  · intro h; subst h; rfl
  · intro h; subst h; rfl
  · intro h1 h2 h3 h4
    simp only [processContainerError, if_neg h1, if_neg h2, if_neg h3, if_neg h4]
    refine ⟨rfl, "container installation failed with exit code ", "", ?_⟩
    simp [NewInstallationError]

/-- Concrete instantiation of the exit-code mapping at exit code 7. -/
theorem processContainerError_exit_code_mapping_witness :
    (processContainerError (.exitErr 7)).code = ErrCodeSystemRequirements ∧
    ∃ pre post,
      (processContainerError (.exitErr 7)).message =
        pre ++ toString (7 : Int) ++ post := by
  have h := processContainerError_exit_code_mapping 7 (by decide)
  exact h.2.2.2.2 (by decide) (by decide) (by decide) (by decide)

/-- Go `types.ProgressUpdate` (timestamp and optional metadata omitted;
the executor always leaves `Step` at its zero value). -/
structure ProgressUpdate where
  phase : String
  step : String := ""
  progress : ℚ
  message : String
deriving DecidableEq

/-- One entry of the fixed phase table in `runInstall` (the container-side
`main.go`): a name, the phase's cumulative progress value, and an action.
The action bodies perform I/O and are abstracted: a run is parameterised
by an oracle `act : String → Option String` giving, per phase name, the
error message the action returns (`none` = success). -/
structure InstallerPhase where
  name : String
  progress : ℚ
deriving DecidableEq

/-- The fixed pipeline of `runInstall`, names and weights as in the source. -/
def installPhases : List InstallerPhase :=
  [⟨"validation", 1/10⟩, ⟨"preparation", 2/10⟩, ⟨"supabase", 6/10⟩,
   ⟨"application", 8/10⟩, ⟨"verification", 9/10⟩, ⟨"complete", 1⟩]

/-- The update printed before a phase's action runs
(`"Starting %s phase..."` at `phase.progress`). -/
def startingUpdate (p : InstallerPhase) : ProgressUpdate :=
  { phase := p.name, progress := p.progress,
    message := "Starting " ++ p.name ++ " phase..." }

/-- The update printed after a phase's action succeeds
(`"Completed %s phase"`, same `phase.progress` — the source mutates only
the message field of the update it already emitted). -/
def completedUpdate (p : InstallerPhase) : ProgressUpdate :=
  { phase := p.name, progress := p.progress,
    message := "Completed " ++ p.name ++ " phase" }

/-- Observable trace of one `runInstall` execution: the progress updates
emitted on stdout in order, the names of the phases whose action was
invoked, in order, and the returned error (`none` = success). -/
structure RunTrace where
  updates : List ProgressUpdate
  executed : List String
  result : Option String
deriving DecidableEq

/-- The phase loop of `runInstall`: emit the starting update, run the
action, and on failure return `fmt.Errorf("phase %s failed: %w", ...)`
immediately; on success emit the completion update and continue. -/
def runInstallGo (act : String → Option String) :
    List InstallerPhase → RunTrace
  | [] => ⟨[], [], none⟩
  | p :: rest =>
    match act p.name with
    | some e =>
        ⟨[startingUpdate p], [p.name],
         some ("phase " ++ p.name ++ " failed: " ++ e)⟩
    | none =>
        let t := runInstallGo act rest
        ⟨startingUpdate p :: completedUpdate p :: t.updates,
         p.name :: t.executed, t.result⟩

/-- Go `runInstall` (container-side `main.go`), restricted to its phase
loop; the configuration-parsing preamble that precedes the loop is not
modelled (no claim concerns it). -/
def runInstall (act : String → Option String) : RunTrace :=
  runInstallGo act installPhases

theorem runInstallGo_ok_prefix (act : String → Option String)
    (pre rest : List InstallerPhase) (h : ∀ q ∈ pre, act q.name = none) :
    (runInstallGo act (pre ++ rest)).result = (runInstallGo act rest).result ∧
    (runInstallGo act (pre ++ rest)).executed =
      pre.map (fun q => q.name) ++ (runInstallGo act rest).executed := by
  induction pre with
  | nil => simp
  | cons p pre ih =>
    have hp : act p.name = none := h p (by simp)
    have ih2 := ih (fun q hq => h q (by simp [hq]))
    simp only [List.cons_append, runInstallGo, hp, List.map_cons, List.append_eq]
    exact ⟨ih2.1, by rw [ih2.2]⟩

theorem runInstallGo_result_none (act : String → Option String)
    (ps : List InstallerPhase) (h : ∀ q ∈ ps, act q.name = none) :
    (runInstallGo act ps).result = none := by
  induction ps with
  | nil => rfl
  | cons p ps ih =>
    have hp : act p.name = none := h p (by simp)
    simp only [runInstallGo, hp]
    exact ih (fun q hq => h q (by simp [hq]))

/-- C2: the first phase whose action fails aborts the pipeline: the
returned error wraps that phase's name, the actions executed are exactly
the successful prefix plus the failing phase (so no later phase and no
compensating action runs), and when every phase succeeds `runInstall`
returns no error. -/
theorem runInstall_aborts_on_first_failure :
    (∀ (act : String → Option String) (pre : List InstallerPhase)
        (p : InstallerPhase) (post : List InstallerPhase) (e : String),
      installPhases = pre ++ p :: post →
      (∀ q ∈ pre, act q.name = none) →
      act p.name = some e →
      (runInstall act).result = some ("phase " ++ p.name ++ " failed: " ++ e) ∧
      (runInstall act).executed = pre.map (fun q => q.name) ++ [p.name]) ∧
    (∀ act : String → Option String,
      (∀ q ∈ installPhases, act q.name = none) →
      (runInstall act).result = none) := by
  constructor
  · intro act pre p post e hsplit hok hfail
    have h := runInstallGo_ok_prefix act pre (p :: post) hok
    have hhead : runInstallGo act (p :: post) =
        ⟨[startingUpdate p], [p.name],
         some ("phase " ++ p.name ++ " failed: " ++ e)⟩ := by
      simp [runInstallGo, hfail]
    rw [runInstall, hsplit]
    rw [hhead] at h
    exact ⟨h.1, h.2⟩
  · intro act h
    exact runInstallGo_result_none act installPhases h

/-- Concrete instantiation: an oracle failing exactly at phase
`supabase` yields the wrapped error and executes only phases 1–3, and the
all-success oracle yields no error. -/
theorem runInstall_aborts_on_first_failure_witness :
    (runInstall (fun n => if n = "supabase" then some "boom" else none)).result =
      some ("phase " ++ "supabase" ++ " failed: " ++ "boom") ∧
    (runInstall (fun n => if n = "supabase" then some "boom" else none)).executed =
      ["validation", "preparation"].map (fun q => q) ++ ["supabase"] ∧
    (runInstall (fun _ => none)).result = none := by
  have h := runInstall_aborts_on_first_failure
  have h1 := h.1 (fun n => if n = "supabase" then some "boom" else none)
    [⟨"validation", 1/10⟩, ⟨"preparation", 2/10⟩] ⟨"supabase", 6/10⟩
    [⟨"application", 8/10⟩, ⟨"verification", 9/10⟩, ⟨"complete", 1⟩] "boom"
    (by simp [installPhases]) (by decide) (by decide)
  refine ⟨h1.1, ?_, h.2 (fun _ => none) (fun q _ => rfl)⟩
  rw [h1.2]; rfl

theorem runInstallGo_mem_updates (act : String → Option String)
    (ps : List InstallerPhase) (u : ProgressUpdate)
    (hu : u ∈ (runInstallGo act ps).updates) :
    ∃ q ∈ ps, u.phase = q.name ∧ u.progress = q.progress := by
  induction ps with
  | nil => simp [runInstallGo] at hu
  | cons p ps ih =>
    cases hact : act p.name with
    | some e =>
      simp only [runInstallGo, hact] at hu
      simp only [List.mem_singleton] at hu
      exact ⟨p, by simp, by simp [hu, startingUpdate]⟩
    | none =>
      simp only [runInstallGo, hact, List.mem_cons] at hu
      rcases hu with rfl | rfl | hu
      · exact ⟨p, by simp, by simp [startingUpdate]⟩
      · exact ⟨p, by simp, by simp [completedUpdate]⟩
      · obtain ⟨q, hq, h1, h2⟩ := ih hu
        exact ⟨q, by simp [hq], h1, h2⟩

theorem runInstallGo_updates_sorted (act : String → Option String)
    (ps : List InstallerPhase)
    (h : List.Pairwise (fun a b => a.progress ≤ b.progress) ps) :
    List.Pairwise (· ≤ ·)
      (((runInstallGo act ps).updates).map (fun u => u.progress)) := by
  induction ps with
  | nil => simp [runInstallGo]
  | cons p ps ih =>
    rw [List.pairwise_cons] at h
    have hle : ∀ u ∈ (runInstallGo act ps).updates, p.progress ≤ u.progress := by
      intro u hu
      obtain ⟨q, hq, _, h2⟩ := runInstallGo_mem_updates act ps u hu
      rw [h2]
      exact h.1 q hq
    cases hact : act p.name with
    | some e =>
      simp [runInstallGo, hact, startingUpdate]
    | none =>
      simp only [runInstallGo, hact, List.map_cons, List.pairwise_cons]
      refine ⟨?_, ?_, ih h.2⟩
      · intro x hx
        simp only [List.mem_cons, List.mem_map] at hx
        rcases hx with rfl | ⟨u, hu, rfl⟩
        · simp [startingUpdate, completedUpdate]
        · exact hle u hu
      · intro x hx
        simp only [List.mem_map] at hx
        obtain ⟨u, hu, rfl⟩ := hx
        exact hle u hu

/-- C4: across any run of the pipeline executor, the emitted progress
values form a non-decreasing sequence, and a progress value of 1.0 occurs
only in updates of the terminal `complete` phase. -/
theorem runInstall_progress_nondecreasing (act : String → Option String) :
    List.Pairwise (· ≤ ·)
      (((runInstall act).updates).map (fun u => u.progress)) ∧
    (∀ u ∈ (runInstall act).updates, u.progress = 1 → u.phase = "complete") := by
  constructor
  · apply runInstallGo_updates_sorted
    simp only [installPhases, List.pairwise_cons, List.mem_cons]
    norm_num
  · intro u hu h1
    obtain ⟨q, hq, hn, hp⟩ := runInstallGo_mem_updates act installPhases u hu
    rw [hn]
    rw [h1] at hp
    simp only [installPhases, List.mem_cons, List.not_mem_nil, or_false] at hq
    rcases hq with rfl | rfl | rfl | rfl | rfl | rfl <;> first | rfl | (norm_num at hp)

/-- Concrete instantiation at the all-success oracle: the final completion
update has progress 1.0 and its phase is `complete`. -/
theorem runInstall_progress_nondecreasing_witness :
    (ProgressUpdate.mk "complete" "" 1 "Completed complete phase") ∈
      (runInstall (fun _ => none)).updates ∧
    (ProgressUpdate.mk "complete" "" 1 "Completed complete phase").phase =
      "complete" := by
  have hm : (ProgressUpdate.mk "complete" "" 1 "Completed complete phase") ∈
      (runInstall (fun _ => none)).updates := by
    simp [runInstall, runInstallGo, installPhases, completedUpdate]
  exact ⟨hm, (runInstall_progress_nondecreasing (fun _ => none)).2 _ hm rfl⟩

/-- C5 counterexample: with every phase action succeeding, the first two
updates emitted — the starting and completion updates of the first phase —
carry the same progress value (both 1/10), so the completion update's
progress is not strictly larger than the starting update's, and the
starting update does not carry the phase's starting cumulative value 0. -/
theorem runInstall_per_phase_updates_cex :
    (((runInstall (fun _ => none)).updates.map (fun u => u.progress))[0]? =
      some (1/10)) ∧
    (((runInstall (fun _ => none)).updates.map (fun u => u.progress))[1]? =
      some (1/10)) ∧
    ¬ ((1 : ℚ)/10 < 1/10) ∧ ¬ ((1 : ℚ)/10 = 0) := by
  refine ⟨?_, ?_, by norm_num, by norm_num⟩ <;>
    simp [runInstall, runInstallGo, installPhases, startingUpdate, completedUpdate]

theorem runInstallGo_updates_all_ok (act : String → Option String)
    (ps : List InstallerPhase) (h : ∀ q ∈ ps, act q.name = none) :
    (runInstallGo act ps).updates =
      ps.flatMap (fun p => [startingUpdate p, completedUpdate p]) := by
  induction ps with
  | nil => rfl
  | cons p ps ih =>
    have hp : act p.name = none := h p (by simp)
    simp only [runInstallGo, hp, List.flatMap_cons]
    rw [ih (fun q hq => h q (by simp [hq]))]
    rfl

theorem runInstallGo_updates_ok_prefix (act : String → Option String)
    (pre rest : List InstallerPhase) (h : ∀ q ∈ pre, act q.name = none) :
    (runInstallGo act (pre ++ rest)).updates =
      pre.flatMap (fun q => [startingUpdate q, completedUpdate q]) ++
        (runInstallGo act rest).updates := by
  induction pre with
  | nil => simp
  | cons p pre ih =>
    have hp : act p.name = none := h p (by simp)
    have ih2 := ih (fun q hq => h q (by simp [hq]))
    simp only [List.cons_append, runInstallGo, hp, List.flatMap_cons,
      List.append_eq]
    rw [ih2]
    rfl

/-- C5 amended: in every run — whether it completes or aborts at its first
failing phase — each phase whose action succeeds contributes exactly two
updates, first the `Starting` update and then the `Completed` update, both
carrying the phase's completion cumulative progress value (the source
emits the same `phase.progress` in both, not a strictly larger value in
the second); a failing phase contributes only its `Starting` update and
unreached phases contribute none. -/
theorem runInstall_two_updates_per_phase :
    (∀ (act : String → Option String) (pre : List InstallerPhase)
        (p : InstallerPhase) (post : List InstallerPhase) (e : String),
      installPhases = pre ++ p :: post →
      (∀ q ∈ pre, act q.name = none) →
      act p.name = some e →
      (runInstall act).updates =
        pre.flatMap (fun q => [startingUpdate q, completedUpdate q]) ++
          [startingUpdate p]) ∧
    (∀ act : String → Option String,
      (∀ p ∈ installPhases, act p.name = none) →
      (runInstall act).updates =
        installPhases.flatMap
          (fun p => [startingUpdate p, completedUpdate p])) := by
  constructor
  · intro act pre p post e hsplit hok hfail
    rw [runInstall, hsplit,
      runInstallGo_updates_ok_prefix act pre (p :: post) hok]
    simp [runInstallGo, hfail]
  · intro act h
    exact runInstallGo_updates_all_ok act installPhases h

/-- Concrete instantiation: a run failing at `supabase` emits both updates
of the two successful phases and only the starting update of `supabase`,
and the all-success run emits both updates of every phase. -/
theorem runInstall_two_updates_per_phase_witness :
    ((runInstall (fun n => if n = "supabase" then some "boom" else none)).updates =
      ([⟨"validation", 1/10⟩, ⟨"preparation", 2/10⟩] :
          List InstallerPhase).flatMap
          (fun q => [startingUpdate q, completedUpdate q]) ++
        [startingUpdate ⟨"supabase", 6/10⟩]) ∧
    ((runInstall (fun _ => none)).updates =
      installPhases.flatMap (fun p => [startingUpdate p, completedUpdate p])) := by
  have h := runInstall_two_updates_per_phase
  exact ⟨h.1 (fun n => if n = "supabase" then some "boom" else none)
      [⟨"validation", 1/10⟩, ⟨"preparation", 2/10⟩] ⟨"supabase", 6/10⟩
      [⟨"application", 8/10⟩, ⟨"verification", 9/10⟩, ⟨"complete", 1⟩] "boom"
      (by simp [installPhases]) (by decide) (by decide),
    h.2 (fun _ => none) (fun _ _ => rfl)⟩

/-- What `streamProgressOutput` does with one stdout line: either push a
decoded `ProgressUpdate` on the progress channel or forward the line to
`logger.Info`. -/
inductive StdoutEvent where
  | progress (u : ProgressUpdate)
  | logInfo (line : String)
deriving DecidableEq

/-- What `streamErrorOutput` does with one stderr line: either signal a
decoded `InstallError` on the error channel or forward the line to
`logger.Error`. -/
inductive StderrEvent where
  | structuredError (e : InstallError)
  | logError (line : String)
deriving DecidableEq

/-- Result of draining one stream: the per-line events in stream order,
plus the scanner failure (an I/O error from `scanner.Err()`, sent on the
error channel after the loop) if the underlying read failed. -/
structure StreamResult (ev : Type) where
  events : List ev
  scanFailure : Option String
deriving DecidableEq

/-- The per-line branch of `streamProgressOutput`: `json.Unmarshal` into a
`ProgressUpdate` (abstracted as the decoder oracle `dP`, `none` meaning
the line does not fully decode) succeeding sends the update, otherwise the
line is logged verbatim. -/
def classifyStdoutLine (dP : String → Option ProgressUpdate) (line : String) :
    StdoutEvent :=
  match dP line with
  | some u => .progress u
  | none => .logInfo line

/-- The per-line branch of `streamErrorOutput`, with the `InstallError`
decoder abstracted as the oracle `dE`. -/
def classifyStderrLine (dE : String → Option InstallError) (line : String) :
    StderrEvent :=
  match dE line with
  | some e => .structuredError e
  | none => .logError line

/-- Go `(*Runner).streamProgressOutput` (internal/container/runner.go):
scan every line of the subordinate's stdout, classify each, then report
the scanner error, if any, on the error channel. -/
def streamProgressOutput (dP : String → Option ProgressUpdate)
    (lines : List String) (scanErr : Option String) : StreamResult StdoutEvent :=
  ⟨lines.map (classifyStdoutLine dP), scanErr⟩

/-- Go `(*Runner).streamErrorOutput` (internal/container/runner.go). -/
def streamErrorOutput (dE : String → Option InstallError)
    (lines : List String) (scanErr : Option String) : StreamResult StderrEvent :=
  ⟨lines.map (classifyStderrLine dE), scanErr⟩

/-- C3: every stdout line yields exactly one event — a pushed
`ProgressUpdate` when it decodes, else a plain log of that very line — and
likewise for stderr with structured `InstallError`s; the positional
correspondence (`List.Forall₂`) shows no line is dropped, and the stream's
failure slot equals the scanner's I/O error alone, so a line that fails to
decode is never a fatal parse error for the stream. -/
theorem stream_lines_never_dropped (dP : String → Option ProgressUpdate)
    (dE : String → Option InstallError) (outLines errLines : List String)
    (seOut seErr : Option String) :
    List.Forall₂
      (fun l ev => (∃ u, dP l = some u ∧ ev = StdoutEvent.progress u) ∨
        (dP l = none ∧ ev = StdoutEvent.logInfo l))
      outLines (streamProgressOutput dP outLines seOut).events ∧
    List.Forall₂
      (fun l ev => (∃ e, dE l = some e ∧ ev = StderrEvent.structuredError e) ∨
        (dE l = none ∧ ev = StderrEvent.logError l))
      errLines (streamErrorOutput dE errLines seErr).events ∧
    (streamProgressOutput dP outLines seOut).scanFailure = seOut ∧
    (streamErrorOutput dE errLines seErr).scanFailure = seErr := by
  refine ⟨?_, ?_, rfl, rfl⟩
  · rw [streamProgressOutput, List.forall₂_map_right_iff, List.forall₂_same]
    intro l _
    cases h : dP l with
    | some u => exact Or.inl ⟨u, rfl, by simp [classifyStdoutLine, h]⟩
    | none => exact Or.inr ⟨rfl, by simp [classifyStdoutLine, h]⟩
  · rw [streamErrorOutput, List.forall₂_map_right_iff, List.forall₂_same]
    intro l _
    cases h : dE l with
    | some e => exact Or.inl ⟨e, rfl, by simp [classifyStderrLine, h]⟩
    | none => exact Or.inr ⟨rfl, by simp [classifyStderrLine, h]⟩

/-- The first event to fire in `runContainer`'s three-way select: process
termination (`cmd.Wait()`, `none` = exit status 0), a value received on
the error channel (a structured `InstallError` parsed from stderr, or a
scanner I/O failure), or context cancellation. -/
inductive RunnerEvent where
  | waitDone (res : Option ExecResult)
  | streamErr (e : InstallError)
  | streamIOErr (msg : String)
  | ctxDone (msg : String)
deriving DecidableEq

/-- The outcome of `runContainer`/`RunInstaller`: `ok` models a `nil`
return, `failed` a typed `*InstallError`, `failedRaw` a plain
`fmt.Errorf`/`ctx.Err()` error carrying only text. -/
inductive RunOutcome where
  | ok
  | failed (e : InstallError)
  | failedRaw (msg : String)
deriving DecidableEq

/-- Go `(*Runner).runContainer` (internal/container/runner.go), its
terminal select: exit 0 returns nil; a non-nil wait error goes through
`processContainerError`; an error-channel value is wrapped as a container
stream error after killing the process; cancellation returns `ctx.Err()`. -/
def runContainer (firstEvent : RunnerEvent) : RunOutcome :=
  match firstEvent with
  | .waitDone none => .ok
  | .waitDone (some r) => .failed (processContainerError r)
  | .streamErr e => .failedRaw ("container stream error: " ++ e.errorString)
  | .streamIOErr m => .failedRaw ("container stream error: " ++ m)
  | .ctxDone m => .failedRaw m

/-- Go `(*Runner).RunInstaller` (internal/container/runner.go): data
directory preparation and image pull (abstracted by their error results),
then the container run. -/
def RunInstaller (dataDirErr pullErr : Option String)
    (firstEvent : RunnerEvent) : RunOutcome :=
  match dataDirErr with
  | some e =>
      .failed (WrapError (some e) ErrCodePermissionDenied
        "failed to create data directory" "container" "preparation")
  | none =>
    match pullErr with
    | some e =>
        .failed (WrapError (some e) ErrCodeNetworkTimeout
          "failed to pull installer image" "container" "pull")
    | none => runContainer firstEvent

/-- C8: when the subordinate process exits with status 0 and no structured
error was observed (the select fires on `waitDone none`), `runContainer`
returns nil, and so does `RunInstaller` given that the workspace
preparation and image pull that let the process run at all succeeded. -/
theorem runner_reports_success_on_exit_zero (dataDirErr pullErr : Option String)
    (ev : RunnerEvent) (h1 : dataDirErr = none) (h2 : pullErr = none)
    (h3 : ev = RunnerEvent.waitDone none) :
    runContainer ev = RunOutcome.ok ∧
    RunInstaller dataDirErr pullErr ev = RunOutcome.ok := by
  subst h1; subst h2; subst h3
  exact ⟨rfl, rfl⟩

/-- Concrete instantiation of the success path. -/
theorem runner_reports_success_on_exit_zero_witness :
    runContainer (RunnerEvent.waitDone none) = RunOutcome.ok ∧
    RunInstaller none none (RunnerEvent.waitDone none) = RunOutcome.ok :=
  runner_reports_success_on_exit_zero none none (RunnerEvent.waitDone none)
    rfl rfl rfl

/- Preflight validator (the system package `detector.go`), with
shared/constants requirement thresholds. -/

def MinRAMBytes : Int := 2 * 1024 * 1024 * 1024

def MinDiskBytes : Int := 10 * 1024 * 1024 * 1024

def RequiredPorts : List Int := [80, 443, 5432, 8000, 3000]

/-- Go `(*Detector).validateRAM`: an error only when the measured value is
strictly positive and below the minimum; a zero (failed) measurement is
exempt. -/
def validateRAM (availableRAM : Int) : Option InstallError :=
  if availableRAM > 0 ∧ availableRAM < MinRAMBytes then
    some (NewSystemError "insufficient RAM"
      ("Available RAM: " ++ toString (availableRAM / (1024 * 1024)) ++
        " MB, Required: " ++ toString (MinRAMBytes / (1024 * 1024)) ++ " MB")
      (some ["Add more RAM to your system",
             "Close other applications to free up memory",
             "Consider using a system with at least 2GB RAM"]))
  else none

/-- Go `(*Detector).validateDiskSpace`, same zero-measurement exemption. -/
def validateDiskSpace (availableDisk : Int) : Option InstallError :=
  if availableDisk > 0 ∧ availableDisk < MinDiskBytes then
    some (NewSystemError "insufficient disk space"
      ("Available disk space: " ++
        toString (availableDisk / (1024 * 1024 * 1024)) ++
        " GB, Required: " ++ toString (MinDiskBytes / (1024 * 1024 * 1024)) ++
        " GB")
      (some ["Free up disk space by removing unnecessary files",
             "Consider using a system with at least 10GB free space",
             "Move the installation to a different partition with more space"]))
  else none

/-- C6: a zero (failed) RAM or disk measurement never by itself triggers an
insufficient-resource error, while a strictly positive measurement below
the fixed minimum does. -/
theorem zero_measurement_never_insufficient :
    validateRAM 0 = none ∧ validateDiskSpace 0 = none ∧
    (∀ ram : Int, 0 < ram → ram < MinRAMBytes →
      ∃ e, validateRAM ram = some e ∧ e.message = "insufficient RAM") ∧
    (∀ disk : Int, 0 < disk → disk < MinDiskBytes →
      ∃ e, validateDiskSpace disk = some e ∧
        e.message = "insufficient disk space") := by
  refine ⟨by simp [validateRAM], by simp [validateDiskSpace], ?_, ?_⟩
  · intro ram h1 h2
    rw [validateRAM, if_pos ⟨h1, h2⟩]
    exact ⟨_, rfl, rfl⟩
  · intro disk h1 h2
    rw [validateDiskSpace, if_pos ⟨h1, h2⟩]
    exact ⟨_, rfl, rfl⟩

/-- Concrete instantiation at one-byte measurements. -/
theorem zero_measurement_never_insufficient_witness :
    validateRAM 0 = none ∧ validateDiskSpace 0 = none ∧
    (∃ e, validateRAM 1 = some e ∧ e.message = "insufficient RAM") ∧
    (∃ e, validateDiskSpace 1 = some e ∧
      e.message = "insufficient disk space") := by
  have h := zero_measurement_never_insufficient
  exact ⟨h.1, h.2.1, h.2.2.1 1 (by decide) (by decide),
    h.2.2.2 1 (by decide) (by decide)⟩

/-- Go `(*Detector).isPortAvailable`: the oracle `connectSucceeds` models
whether a short-lived loopback TCP dial to the port succeeds; the port is
reported available exactly when the dial fails or times out. -/
def isPortAvailable (connectSucceeds : Int → Bool) (port : Int) : Bool :=
  !(connectSucceeds port)

/-- Go error value constructed by `validatePortAvailability` for a port
already in use. -/
def portConflictError (port : Int) : InstallError :=
  NewSystemError "port conflict"
    ("Port " ++ toString port ++ " is already in use")
    (some ["Stop the service using port " ++ toString port,
           "Use \x27sudo netstat -tlnp | grep :" ++ toString port ++
             "\x27 to identify the process",
           "Consider changing the configuration to use different ports"])

/-- The loop body of Go `(*Detector).validatePortAvailability` over a port
list: fail on the first port that is not available. -/
def validatePortsGo (connectSucceeds : Int → Bool) :
    List Int → Option InstallError
  | [] => none
  | port :: rest =>
    if !(isPortAvailable connectSucceeds port) then
      some (portConflictError port)
    else validatePortsGo connectSucceeds rest

/-- Go `(*Detector).validatePortAvailability` over the fixed required-port
list from shared/constants. -/
def validatePortAvailability (connectSucceeds : Int → Bool) :
    Option InstallError :=
  validatePortsGo connectSucceeds RequiredPorts

theorem validatePortsGo_finds (connectSucceeds : Int → Bool) (ps : List Int)
    (hp : ∃ p ∈ ps, connectSucceeds p = true) :
    ∃ q ∈ ps, connectSucceeds q = true ∧
      validatePortsGo connectSucceeds ps = some (portConflictError q) := by
  induction ps with
  | nil => simp at hp
  | cons port rest ih =>
    cases hc : connectSucceeds port with
    | true =>
      refine ⟨port, by simp, hc, ?_⟩
      simp [validatePortsGo, isPortAvailable, hc]
    | false =>
      obtain ⟨p, hmem, hpc⟩ := hp
      have hpr : p ∈ rest := by
        rcases List.mem_cons.mp hmem with rfl | h
        · rw [hc] at hpc; exact absurd hpc (by simp)
        · exact h
      obtain ⟨q, hq, hqc, hres⟩ := ih ⟨p, hpr, hpc⟩
      refine ⟨q, by simp [hq], hqc, ?_⟩
      simpa [validatePortsGo, isPortAvailable, hc] using hres

theorem validatePortsGo_all_available (connectSucceeds : Int → Bool)
    (ps : List Int) (h : ∀ p ∈ ps, connectSucceeds p = false) :
    validatePortsGo connectSucceeds ps = none := by
  induction ps with
  | nil => rfl
  | cons port rest ih =>
    have hc : connectSucceeds port = false := h port (by simp)
    simp only [validatePortsGo, isPortAvailable, hc]
    simpa using ih (fun p hp => h p (by simp [hp]))

/-- C7 counterexample: with exactly port 443 bound on loopback, port
validation returns the conflict error for 443, but that error's taxonomy
code is SYSTEM_REQUIREMENTS (it is built by `NewSystemError`), not the
PORT_CONFLICT taxonomy member — so the claim that the returned
`InstallError` is port-conflict-classed is false. -/
theorem validatePortAvailability_code_cex :
    validatePortAvailability (fun p => p == 443) =
      some (portConflictError 443) ∧
    (portConflictError 443).code = ErrCodeSystemRequirements ∧
    (portConflictError 443).code ≠ ErrCodePortConflict := by
  refine ⟨?_, rfl, by decide⟩
  simp [validatePortAvailability, RequiredPorts, validatePortsGo, isPortAvailable,
    portConflictError]

/-- C7 amended: if a loopback connection to any required port succeeds,
port validation returns the conflict `InstallError` of the first such
port — a system-requirements-coded error whose message is
`port conflict` and whose suggestions include identifying the conflicting
process; when every dial fails or times out, all ports are treated as
available and validation returns no error. -/
theorem validatePortAvailability_conflict (connectSucceeds : Int → Bool) :
    ((∃ p ∈ RequiredPorts, connectSucceeds p = true) →
      ∃ q ∈ RequiredPorts, connectSucceeds q = true ∧
        validatePortAvailability connectSucceeds =
          some (portConflictError q) ∧
        (portConflictError q).code = ErrCodeSystemRequirements ∧
        (portConflictError q).message = "port conflict" ∧
        ("Use \x27sudo netstat -tlnp | grep :" ++ toString q ++
          "\x27 to identify the process") ∈ (portConflictError q).suggestions) ∧
    ((∀ p ∈ RequiredPorts, connectSucceeds p = false) →
      validatePortAvailability connectSucceeds = none) := by
  constructor
  · intro hp
    obtain ⟨q, hq, hqc, hres⟩ := validatePortsGo_finds connectSucceeds
      RequiredPorts hp
    exact ⟨q, hq, hqc, hres, rfl, rfl, by simp [portConflictError, NewSystemError]⟩
  · exact validatePortsGo_all_available connectSucceeds RequiredPorts

/-- Concrete instantiation: port 443 bound, and no port bound. -/
theorem validatePortAvailability_conflict_witness :
    (∃ q ∈ RequiredPorts, (fun p : Int => p == 443) q = true ∧
      validatePortAvailability (fun p => p == 443) =
        some (portConflictError q) ∧
      (portConflictError q).code = ErrCodeSystemRequirements ∧
      (portConflictError q).message = "port conflict" ∧
      ("Use \x27sudo netstat -tlnp | grep :" ++ toString q ++
        "\x27 to identify the process") ∈ (portConflictError q).suggestions) ∧
    validatePortAvailability (fun _ => false) = none := by
  constructor
  · exact (validatePortAvailability_conflict (fun p => p == 443)).1
      ⟨443, by decide, by decide⟩
  · exact (validatePortAvailability_conflict (fun _ => false)).2
      (fun p _ => rfl)

/- Configuration model (shared/constants types.go) and validation (the
config package), for C9 and C10. -/

def EnvironmentDevelopment : String := "dev"

def EnvironmentStaging : String := "staging"

def EnvironmentProduction : String := "prod"

def SSLProviderLetsEncrypt : String := "letsencrypt"

def SSLProviderSelfSigned : String := "self-signed"

def SSLProviderCustom : String := "custom"

/-- Go `types.SSLConfig` (the `Environment` and `SSLProvider` named string
types are modelled as `String`). -/
structure SSLConfig where
  provider : String
  email : String := ""
  customCert : String := ""
  customKey : String := ""
  autoRenew : Bool := false
deriving DecidableEq

/-- Go `types.InstallationConfig`.  `CreatedAt` (a `time.Time` that
marshals to its RFC 3339 text) is modelled by that text. -/
structure InstallationConfig where
  environment : String
  domain : String
  email : String
  ssl : SSLConfig
  createdAt : String
  version : String
deriving DecidableEq

/-- Go `config.validateEnvironment`. -/
def validateEnvironment (env : String) : Option InstallError :=
  if env = EnvironmentDevelopment ∨ env = EnvironmentStaging ∨
      env = EnvironmentProduction then none
  else some (NewConfigError "invalid environment"
    "must be one of: dev, staging, prod")

/-- The character class `[a-zA-Z0-9]` of the Go domain regex. -/
def isAlnumChar (c : Char) : Bool := c.isAlpha || c.isDigit

/-- Go `strings.ToLower`, character-wise (modelled for the ASCII range the
domain regex accepts). -/
def goToLower (s : String) : String := ⟨s.data.map Char.toLower⟩

/-- Go `strings.TrimSpace`: drop leading and trailing whitespace. -/
def goTrimSpace (s : String) : String :=
  ⟨((s.data.dropWhile Char.isWhitespace).reverse.dropWhile
      Char.isWhitespace).reverse⟩

/-- Go `strings.HasSuffix`. -/
def goHasSuffix (s suffix : String) : Bool :=
  suffix.data.isSuffixOf s.data

/-- One label of the Go FQDN regex
`[a-zA-Z0-9]([a-zA-Z0-9-]\x7b0,61\x7d[a-zA-Z0-9])?`: nonempty, at most 63
characters, first and last alphanumeric, interior alphanumeric or hyphen. -/
def validLabel (l : List Char) : Bool :=
  match l.head?, l.getLast? with
  | some a, some b =>
      decide (l.length ≤ 63) && isAlnumChar a && isAlnumChar b &&
        l.all (fun c => isAlnumChar c || c == '-')
  | _, _ => false

/-- Splitting a character list at the literal dots, as the anchored regex
`label(\.label)*` decomposes its subject. -/
def splitOnDot : List Char → List (List Char)
  | [] => [[]]
  | c :: rest =>
    if c = '.' then [] :: splitOnDot rest
    else
      match splitOnDot rest with
      | [] => [[c]]
      | h :: t => (c :: h) :: t

/-- Full-string match of the anchored Go regex `domainRegex`: every
dot-separated label is valid (an empty subject yields the single empty
label and fails). -/
def domainRegexMatches (s : String) : Bool :=
  (splitOnDot s.data).all validLabel

/-- Go `config.validateDomain`: empty check on the raw input, lowering and
trimming, the localhost/.local development escape, the FQDN regex, and the
253-character bound. -/
def validateDomain (domain : String) : Option InstallError :=
  if domain = "" then some (NewConfigError "domain is required" "")
  else
    let d := goTrimSpace (goToLower domain)
    if d = "localhost" || goHasSuffix d ".local" then none
    else if !(domainRegexMatches d) then
      some (NewConfigError "invalid domain format"
        ("domain \x27" ++ d ++ "\x27 is not a valid FQDN"))
    else if 253 < d.length then
      some (NewConfigError "domain too long"
        "domain name must not exceed 253 characters")
    else none

/-- Go `config.validateEmail`; `net/mail.ParseAddress` is abstracted as
the oracle `parseAddressOk` (it is consulted only on non-empty input). -/
def validateEmail (parseAddressOk : String → Bool) (email : String) :
    Option InstallError :=
  if email = "" then none
  else if parseAddressOk email then none
  else some (NewConfigError "invalid email format"
    ("email \x27" ++ email ++ "\x27 is not valid"))

/-- Go `config.validateSSLConfig` (the caller always passes the non-nil
address of the config's SSL field, so the nil branch is not modelled). -/
def validateSSLConfig (parseAddressOk : String → Bool) (ssl : SSLConfig) :
    Option InstallError :=
  if ssl.provider = SSLProviderLetsEncrypt then
    if ssl.email = "" then
      some (NewConfigError "email required for Let\x27s Encrypt"
        "Let\x27s Encrypt requires a valid email address for certificate registration")
    else validateEmail parseAddressOk ssl.email
  else if ssl.provider = SSLProviderCustom then
    if ssl.customCert = "" || ssl.customKey = "" then
      some (NewConfigError "custom SSL requires both certificate and key"
        "both custom_cert and custom_key must be provided for custom SSL")
    else none
  else if ssl.provider = SSLProviderSelfSigned then none
  else if ssl.provider = "" then none
  else some (NewConfigError "invalid SSL provider"
    "SSL provider must be one of: letsencrypt, self-signed, custom")

/-- Go `config.ValidateConfig`; `none` for the config models the Go nil
pointer. -/
def ValidateConfig (parseAddressOk : String → Bool)
    (config : Option InstallationConfig) : Option InstallError :=
  match config with
  | none => some (NewConfigError "configuration cannot be nil" "")
  | some c =>
    match validateEnvironment c.environment with
    | some e => some e
    | none =>
      match validateDomain c.domain with
      | some e => some e
      | none =>
        if c.email ≠ "" then
          match validateEmail parseAddressOk c.email with
          | some e => some e
          | none => validateSSLConfig parseAddressOk c.ssl
        else if c.environment = EnvironmentProduction then
          some (NewConfigError "email is required for production environment"
            "email is needed for SSL certificate generation")
        else validateSSLConfig parseAddressOk c.ssl

/-- C10: a config with environment `prod` and an empty email is rejected
by `ValidateConfig` with a configuration-invalid error (provided its
domain passes, so that the email check is reached), while an
otherwise-valid config with empty email and environment `dev` or
`staging` passes validation. -/
theorem prod_requires_email (parseAddressOk : String → Bool)
    (c : InstallationConfig) (hdom : validateDomain c.domain = none) :
    (c.environment = EnvironmentProduction → c.email = "" →
      ValidateConfig parseAddressOk (some c) =
        some (NewConfigError "email is required for production environment"
          "email is needed for SSL certificate generation") ∧
      (NewConfigError "email is required for production environment"
        "email is needed for SSL certificate generation").code =
          ErrCodeConfigInvalid) ∧
    ((c.environment = EnvironmentDevelopment ∨
        c.environment = EnvironmentStaging) → c.email = "" →
      validateSSLConfig parseAddressOk c.ssl = none →
      ValidateConfig parseAddressOk (some c) = none) := by
  constructor
  · intro henv hemail
    refine ⟨?_, rfl⟩
    have he : validateEnvironment EnvironmentProduction = none := by
      simp [validateEnvironment, EnvironmentDevelopment, EnvironmentStaging,
        EnvironmentProduction]
    simp [ValidateConfig, henv, he, hdom, hemail]
  · intro henv hemail hssl
    have he : validateEnvironment c.environment = none := by
      rcases henv with h | h <;> simp [validateEnvironment, h]
    have hne : ¬ c.environment = EnvironmentProduction := by
      rcases henv with h | h <;> simp [h, EnvironmentDevelopment,
        EnvironmentStaging, EnvironmentProduction]
    simp [ValidateConfig, he, hdom, hemail, hne, hssl]

/-- Concrete instantiation: a prod config with domain `app.local` and
empty email is rejected; the same config under `dev` passes. -/
theorem prod_requires_email_witness :
    (ValidateConfig (fun _ => false)
      (some ⟨"prod", "app.local", "", ⟨"", "", "", "", false⟩, "", ""⟩) =
      some (NewConfigError "email is required for production environment"
        "email is needed for SSL certificate generation")) ∧
    (ValidateConfig (fun _ => false)
      (some ⟨"dev", "app.local", "", ⟨"", "", "", "", false⟩, "", ""⟩) =
      none) := by
  have hdom : validateDomain "app.local" = none := by decide
  constructor
  · exact ((prod_requires_email (fun _ => false)
      ⟨"prod", "app.local", "", ⟨"", "", "", "", false⟩, "", ""⟩ hdom).1
      rfl rfl).1
  · exact (prod_requires_email (fun _ => false)
      ⟨"dev", "app.local", "", ⟨"", "", "", "", false⟩, "", ""⟩ hdom).2
      (Or.inl rfl) rfl (by decide)

/- Serialization across the delegation boundary (C9).  `runContainer`
passes `json.Marshal(config)` to the subordinate, which decodes it with
`json.Unmarshal` into the same struct type.  `encoding/json` is modelled
at the JSON-value level for the field set of `InstallationConfig`: an
object per struct, a string per string-typed field (including the named
string types and the RFC 3339 text of `CreatedAt`), a boolean for
`AutoRenew`, honouring the `omitempty` tags on the three optional SSL
fields and Go's keep-zero-value treatment of absent keys. -/

inductive JsonValue where
  | null
  | bool (b : Bool)
  | str (s : String)
  | obj (fields : List (String × JsonValue))

/-- Field lookup in a decoded JSON object (our encoder never emits a
duplicate key, so first-match lookup agrees with Go). -/
def lookupField : List (String × JsonValue) → String → Option JsonValue
  | [], _ => none
  | (k, v) :: rest, key => if k = key then some v else lookupField rest key

/-- A string field with the Go `,omitempty` option: omitted when empty. -/
def omitemptyStr (key s : String) : List (String × JsonValue) :=
  if s = "" then [] else [(key, JsonValue.str s)]

/-- `json.Marshal` on `types.SSLConfig`, field order and tags as in the
struct definition. -/
def marshalSSL (s : SSLConfig) : JsonValue :=
  .obj ([("provider", .str s.provider)] ++
    omitemptyStr "email" s.email ++
    omitemptyStr "custom_cert" s.customCert ++
    omitemptyStr "custom_key" s.customKey ++
    [("auto_renew", .bool s.autoRenew)])

/-- `json.Marshal` on `types.InstallationConfig`. -/
def marshalConfig (c : InstallationConfig) : JsonValue :=
  .obj [("environment", .str c.environment), ("domain", .str c.domain),
        ("email", .str c.email), ("ssl", marshalSSL c.ssl),
        ("created_at", .str c.createdAt), ("version", .str c.version)]

/-- `json.Unmarshal` of one string-typed field: an absent key keeps the
zero value `""`, a present string is taken, any other shape is a decode
error. -/
def getStringField (fields : List (String × JsonValue)) (key : String) :
    Option String :=
  match lookupField fields key with
  | none => some ""
  | some (.str s) => some s
  | some _ => none

/-- `json.Unmarshal` of one bool-typed field (zero value `false`). -/
def getBoolField (fields : List (String × JsonValue)) (key : String) :
    Option Bool :=
  match lookupField fields key with
  | none => some false
  | some (.bool b) => some b
  | some _ => none

/-- `json.Unmarshal` into `types.SSLConfig`. -/
def unmarshalSSL : JsonValue → Option SSLConfig
  | .obj fields =>
    match getStringField fields "provider", getStringField fields "email",
        getStringField fields "custom_cert", getStringField fields "custom_key",
        getBoolField fields "auto_renew" with
    | some p, some e, some cc, some ck, some ar => some ⟨p, e, cc, ck, ar⟩
    | _, _, _, _, _ => none
  | _ => none

/-- `json.Unmarshal` of the nested SSL field: an absent key keeps the zero
`SSLConfig`. -/
def getSSLField (fields : List (String × JsonValue)) : Option SSLConfig :=
  match lookupField fields "ssl" with
  | none => some ⟨"", "", "", "", false⟩
  | some j => unmarshalSSL j

/-- `json.Unmarshal` into `types.InstallationConfig`. -/
def unmarshalConfig : JsonValue → Option InstallationConfig
  | .obj fields =>
    match getStringField fields "environment", getStringField fields "domain",
        getStringField fields "email", getSSLField fields,
        getStringField fields "created_at", getStringField fields "version" with
    | some env, some dom, some em, some ssl, some ca, some v =>
        some ⟨env, dom, em, ssl, ca, v⟩
    | _, _, _, _, _, _ => none
  | _ => none

theorem marshalSSL_roundtrip (s : SSLConfig) :
    unmarshalSSL (marshalSSL s) = some s := by
  obtain ⟨p, e, cc, ck, ar⟩ := s
  by_cases he : e = "" <;> by_cases hcc : cc = "" <;> by_cases hck : ck = "" <;>
    simp [marshalSSL, unmarshalSSL, omitemptyStr, getStringField, getBoolField,
      lookupField, he, hcc, hck]

/-- C9: serializing an `InstallationConfig` across the delegation boundary
and deserializing it yields a config equal in every field to the original,
for every combination of environment, domain, email and TLS
provider/material fields. -/
theorem config_serialization_roundtrip (c : InstallationConfig) :
    unmarshalConfig (marshalConfig c) = some c := by
  obtain ⟨env, dom, em, ssl, ca, v⟩ := c
  simp [marshalConfig, unmarshalConfig, getStringField, getSSLField,
    lookupField, marshalSSL_roundtrip]

end Subosity
